import Mathlib

/-!
Shallow embedding of the JSI (JavaScript interpreter) dispatch subsystem of
`yt_dlp/jsinterp/common.py`: the capability model, the backend registry
filters, the preference scoring, the `JSIWrapper` construction and its
request-dispatch loop, and the `execute` entry point with its
`require_features` contract check.

Backends (`JSI` classes / instances) are modelled as records carrying their
key, name, declared feature set, base preference, availability probe result,
the set of method names they expose, and the behaviour of invoking a method
(`Except` models a normal return vs a raised `ExtractorError`).  Raised
errors are modelled by their message strings.  The dispatch loop is
instrumented with the list of backend keys actually invoked, so that
"backend X was never called" is expressible.
-/

namespace JSInterp

/-- The closed feature set `_ALL_FEATURES` (common.py lines 22-27). -/
def ALL_FEATURES : List String := ["wasm", "location", "dom", "cookies"]

/-- A JSI backend: registered class together with the behaviour of an
instance constructed from it.  `is_available` is the result of the
availability probe, `hasMethod m` models `callable(getattr(h, m, None))`,
and `run m args kwargs` models invoking the bound method: `.ok r` is a
normal return, `.error e` a raised `ExtractorError` with message `e`. -/
structure JSIClass where
  JSI_KEY : String
  JSI_NAME : String
  _SUPPORTED_FEATURES : List String
  _BASE_PREFERENCE : Int
  is_available : Bool
  hasMethod : String → Bool
  run : String → List String → List (String × String) → Except String String

/-- Dict lookup `_JSI_HANDLERS[key]` over the registry, modelled as the
first registered class with the given key (dict keys are unique). -/
def lookupCls (registry : List JSIClass) (k : String) : Option JSIClass :=
  registry.find? (fun c => c.JSI_KEY == k)

/-- Declared feature set of the registered backend with key `k`
(empty when no such backend is registered). -/
def supported_features_of (registry : List JSIClass) (k : String) : List String :=
  ((lookupCls registry k).map (fun c => c._SUPPORTED_FEATURES)).getD []

/-- `filter_jsi_keys` (common.py lines 34-43): start from all registered
keys, then filter by capability supersets, by the include list, and by the
exclude list.  Each `if` mirrors Python truthiness of the argument. -/
def filter_jsi_keys (registry : List JSIClass)
    (features only_include exclude : List String) : List String :=
  let keys := registry.map (fun c => c.JSI_KEY)
  let keys := if features.isEmpty then keys else
    keys.filter (fun k => decide ((lookupCls registry k).isSome
      ∧ ∀ f ∈ features, f ∈ supported_features_of registry k))
  let keys := if only_include.isEmpty then keys else
    keys.filter (fun k => decide (k ∈ only_include))
  let keys := if exclude.isEmpty then keys else
    keys.filter (fun k => decide (k ∉ exclude))
  keys

/-- One step of building the `pref_score` dict in `order_to_pref`
(common.py line 59): entry `(i, key)` maps `key` to `(i + 1) * multiplier`,
later entries overwriting earlier ones, as in a Python dict comprehension. -/
def prefStep (multiplier : Int) (acc : String → Int) (p : Nat × String) : String → Int :=
  fun k => if k = p.2 then ((p.1 : Int) + 1) * multiplier else acc k

/-- `order_to_pref` (common.py lines 57-63): reverse the ordered key list,
enumerate it, build the score dict (default 0), and look the handler's key
up in it.  The resulting preference function ignores the method name. -/
def order_to_pref (jsi_order : List String) (multiplier : Int) :
    JSIClass → String → Int :=
  let pref_score : String → Int :=
    (jsi_order.reverse.enum).foldl (prefStep multiplier) (fun _ => 0)
  fun jsi _ => pref_score jsi.JSI_KEY

/-- The combined preference score for a handler:
`sum(pref_func(handler, method_name, args, kwargs) for pref_func in self.preferences)`
(common.py line 169).  Python's `sum` is a left fold from 0. -/
def combinedScore (prefs : List (JSIClass → String → Int))
    (h : JSIClass) (m : String) : Int :=
  prefs.foldl (fun acc f => acc + f h m) 0

/-- The global `_base_preference` function registered at module load
(common.py lines 302-304). -/
def base_preference : JSIClass → String → Int :=
  fun h _ => h._BASE_PREFERENCE

/-- The `fallback_jsi` constructor argument: an explicit list of keys or the
sentinel string `"all"` (common.py line 120). -/
inductive FallbackPolicy where
  | keys (ks : List String)
  | all

/-- A constructed `JSIWrapper`: declared features, the instantiated handler
instances of `self._handler_dict` in insertion order, the active preference
functions, the fallback-allowed keys and the test flag. -/
structure JSIWrapper where
  _features : List String
  _handler_dict : List JSIClass
  preferences : List (JSIClass → String → Int)
  _fallback_jsi : List String
  _is_test : Bool

/-- Errors raised during `JSIWrapper.__init__`, carrying the data embedded
in the corresponding `ExtractorError` messages. -/
inductive InitError where
  | unsupportedFeatures (unsupported : List String)
  | noJSI (features : List String)
  | backendInit (key : String)

/-- Instantiation of the eligible handler classes
(common.py lines 144-147, constructor check at lines 229-231: a backend
whose declared features do not cover the requested ones raises). -/
def instantiateHandlers (features : List String) :
    List JSIClass → Except InitError (List JSIClass)
  | [] => .ok []
  | c :: cs =>
      if ∀ f ∈ features, f ∈ c._SUPPORTED_FEATURES then
        (instantiateHandlers features cs).map (fun l => c :: l)
      else
        .error (.backendInit c.JSI_KEY)

/-- `JSIWrapper.__init__` (common.py lines 111-153).  `registry` models
`_JSI_HANDLERS` (insertion ordered), `globalPrefs` models the contents of
`_JSI_PREFERENCES`, `user_prefs` models the operator setting
`params['jsi_preference']` (invalid keys are dropped with a warning).  The
url, timeout, user-agent and per-backend extra params do not influence
dispatch behaviour and are omitted.  On success, returns the wrapper
together with the keys of the backends instantiated during construction. -/
def JSIWrapper.init (registry : List JSIClass)
    (globalPrefs : List (JSIClass → String → Int))
    (features only_include exclude : List String)
    (user_prefs preferred_order : List String)
    (fallback : FallbackPolicy) (is_test : Bool) :
    Except InitError (JSIWrapper × List String) :=
  let unsupported := (features.filter (fun f => decide (f ∉ ALL_FEATURES))).dedup
  if !unsupported.isEmpty then
    .error (.unsupportedFeatures unsupported)
  else
    let validPrefs := user_prefs.filter (fun k => (lookupCls registry k).isSome)
    let handler_keys := filter_jsi_keys registry features only_include exclude
    let handler_classes := handler_keys.filterMap (lookupCls registry)
    if handler_classes.isEmpty then
      .error (.noJSI features)
    else
      (instantiateHandlers features handler_classes).map (fun hs =>
        (⟨features, hs,
          order_to_pref validPrefs 10000 :: order_to_pref preferred_order 100 :: globalPrefs,
          (match fallback with
           | .all => handler_classes.map (fun c => c.JSI_KEY)
           | .keys ks => ks),
          is_test⟩,
         handler_classes.map (fun c => c.JSI_KEY)))

/-- `JSIWrapper._get_handlers` (common.py lines 161-175): filter the
instantiated handlers to those exposing the method, fail when none does,
else sort descending by combined preference score.  Python's `sorted` with
`reverse=True` is stable, which coincides with `List.insertionSort` under
the relation "left score at least right score". -/
def get_handlers (w : JSIWrapper) (m : String) : Except String (List JSIClass) :=
  let handlers := w._handler_dict.filter (fun h => h.hasMethod m)
  if handlers.isEmpty then
    .error ("No JSI supports method `" ++ m ++ "`, included handlers: "
      ++ String.intercalate ", " (w._handler_dict.map (fun h => h.JSI_KEY)))
  else
    .ok (List.insertionSort
      (fun a b => combinedScore w.preferences b m ≤ combinedScore w.preferences a m)
      handlers)

/-- Outcome of a dispatch: result (or raised error message), the
accumulated unavailable backend names, the recorded (key, error) failure
pairs, and — instrumentation — the keys of the backends actually invoked. -/
structure LoopOut where
  result : Except String String
  unavailable : List String
  exceptions : List (String × String)
  invoked : List String

/-- The aggregated message raised when all candidates are exhausted
(common.py lines 201-207). -/
def exhaustedMsg (m : String) (unavailable : List String)
    (exceptions : List (String × String)) : String :=
  if exceptions.isEmpty then
    "No available JSI installed, please install one of: "
      ++ String.intercalate ", " unavailable
  else if unavailable.isEmpty then
    "Failed to perform " ++ m ++ ", total " ++ toString exceptions.length ++ " errors"
  else
    "Failed to perform " ++ m ++ ", total " ++ toString exceptions.length ++ " errors"
      ++ ". You can try installing one of unavailable JSI: "
      ++ String.intercalate ", " unavailable

/-- The candidate loop of `JSIWrapper._dispatch_request`
(common.py lines 180-207), with `unavailable` and `exceptions` as the
accumulators of the two mutable lists. -/
def dispatch_loop (w : JSIWrapper) (m : String) (args : List String)
    (kwargs : List (String × String)) :
    List JSIClass → List String → List (String × String) → LoopOut
  | [], unavailable, exceptions =>
      ⟨.error (exhaustedMsg m unavailable exceptions), unavailable, exceptions, []⟩
  | h :: rest, unavailable, exceptions =>
      if !h.is_available then
        if w._is_test then
          ⟨.error (h.JSI_NAME ++ " is not available for testing, add \"" ++ h.JSI_KEY
            ++ "\" in `exclude` if it should not be used"), unavailable, exceptions, []⟩
        else
          dispatch_loop w m args kwargs rest (unavailable ++ [h.JSI_NAME]) exceptions
      else
        match h.run m args kwargs with
        | .ok r => ⟨.ok r, unavailable, exceptions, [h.JSI_KEY]⟩
        | .error e =>
            if h.JSI_KEY ∉ w._fallback_jsi then
              ⟨.error e, unavailable, exceptions, [h.JSI_KEY]⟩
            else
              let out := dispatch_loop w m args kwargs rest unavailable
                (exceptions ++ [(h.JSI_KEY, e)])
              { out with invoked := h.JSI_KEY :: out.invoked }

/-- `JSIWrapper._dispatch_request` (common.py lines 177-207). -/
def dispatch_request (w : JSIWrapper) (m : String) (args : List String)
    (kwargs : List (String × String)) : LoopOut :=
  match get_handlers w m with
  | .error e => ⟨.error e, [], [], []⟩
  | .ok hs => dispatch_loop w m args kwargs hs [] []

/-- Keyword arguments of `JSIWrapper.execute` as passed by the caller:
`none` means the keyword was omitted, `some v` that it was explicitly
passed with value `v` (where `v = none` models passing Python `None`). -/
structure ExecKwargs where
  note : Option (Option String)
  html : Option (Option String)
  cookiejar : Option (Option String)

/-- Modelled from the spec: `filter_dict` lives in the utils module, which
is not under src/; per the spec the optional `execute` parameters left at
`None` are filtered out before the request is forwarded to backends.  It
drops the entries of an association list whose value is `None`. -/
def filter_dict (d : List (String × Option String)) : List (String × String) :=
  d.filterMap (fun p => p.2.map (fun v => (p.1, v)))

/-- The keyword arguments forwarded to `_dispatch_request` by `execute`
(common.py lines 221-222): the effective value of each parameter (explicit
value, or the `None` default when omitted), with `None` entries dropped. -/
def execForwardedKwargs (kw : ExecKwargs) : List (String × String) :=
  filter_dict [("note", kw.note.getD none), ("html", kw.html.getD none),
    ("cookiejar", kw.cookiejar.getD none)]

/-- `JSIWrapper.execute` (common.py lines 209-222) under its
`require_features({'location': 'location', 'html': 'dom', 'cookiejar': 'cookies'})`
decorator (lines 66-77): the decorator checks, in dict order, presence of
each protected keyword in `kwargs` against the declared features and raises
before dispatch on a violation; `location` is not a parameter of `execute`
and thus never present.  `variadic` (utils, not under src/) wraps the single
feature string into a one-element tuple, so the superset check is a single
membership test. -/
def execute (w : JSIWrapper) (jscode video_id : String) (kw : ExecKwargs) : LoopOut :=
  if kw.html.isSome ∧ "dom" ∉ w._features then
    ⟨.error "feature dom is required for `html` param but not declared", [], [], []⟩
  else if kw.cookiejar.isSome ∧ "cookies" ∉ w._features then
    ⟨.error "feature cookies is required for `cookiejar` param but not declared", [], [], []⟩
  else
    dispatch_request w "execute" [jscode, video_id] (execForwardedKwargs kw)

/-! Concrete backend and wrapper fixtures used by the witness theorems. -/

/-- A backend with key "A" that implements `execute` and succeeds. -/
def jsiA : JSIClass :=
  ⟨"A", "AName", ["wasm", "location", "dom", "cookies"], 0, true,
   fun m => m == "execute", fun _ _ _ => .ok "outA"⟩

/-- A backend with key "B" that implements `execute` and succeeds. -/
def jsiB : JSIClass :=
  ⟨"B", "BName", ["wasm", "location", "dom", "cookies"], 0, true,
   fun m => m == "execute", fun _ _ _ => .ok "outB"⟩

/-- A backend with key "F" whose `execute` raises an `ExtractorError`. -/
def jsiFail : JSIClass :=
  ⟨"F", "FName", ["wasm", "location", "dom", "cookies"], 0, true,
   fun m => m == "execute", fun _ _ _ => .error "boom"⟩

/-- A backend with key "U" whose availability probe fails. -/
def jsiUnavail : JSIClass :=
  ⟨"U", "UName", ["wasm", "location", "dom", "cookies"], 0, false,
   fun m => m == "execute", fun _ _ _ => .ok "never"⟩

/-- A session preferring "A" over "B", both allowed to fall back. -/
def wAB : JSIWrapper :=
  ⟨[], [jsiA, jsiB], [order_to_pref ["A", "B"] 100], ["A", "B"], false⟩

/-- A session where the failing backend is in the fallback set. -/
def wFallback : JSIWrapper := ⟨[], [jsiFail, jsiB], [], ["F"], false⟩

/-- A session where the failing backend is not in the fallback set. -/
def wNoFallback : JSIWrapper := ⟨[], [jsiFail, jsiB], [], [], false⟩

/-- A session whose only backend is unavailable. -/
def wUnavail : JSIWrapper := ⟨[], [jsiUnavail], [], [], false⟩

/-- A session that declared no features (in particular not "dom"). -/
def wNoDom : JSIWrapper := ⟨[], [jsiA], [], [], false⟩

/-- The wrapper value produced by `JSIWrapper.init` over the one-backend
registry `[jsiA]` with all-empty configuration. -/
def wA_init : JSIWrapper :=
  ⟨[], [jsiA], [order_to_pref [] 10000, order_to_pref [] 100], [], false⟩

/-! Helper lemmas about the preference-score dict built by `order_to_pref`. -/

/-- Keys absent from the enumerated list are left at the accumulator. -/
theorem prefFold_not_mem (mult : Int) (n : Nat) (xs : List String)
    (acc : String → Int) (k : String) (h : k ∉ xs) :
    ((List.enumFrom n xs).foldl (prefStep mult) acc) k = acc k := by
  induction xs generalizing n acc with
  | nil => rfl
  | cons x xs ih =>
      simp only [List.mem_cons, not_or] at h
      rw [show List.enumFrom n (x :: xs) = (n, x) :: List.enumFrom (n + 1) xs from rfl,
        List.foldl_cons, ih _ _ h.2]
      simp [prefStep, h.1]

/-- On a duplicate-free list, the key at index `j` scores `(n + j + 1) * mult`. -/
theorem prefFold_get (mult : Int) (n : Nat) (xs : List String) (acc : String → Int)
    (k : String) (j : Nat) (hnd : xs.Nodup) (hj : xs.get? j = some k) :
    ((List.enumFrom n xs).foldl (prefStep mult) acc) k
      = (((n + j : Nat) : Int) + 1) * mult := by
  induction xs generalizing n acc j with
  | nil => simp at hj
  | cons x xs ih =>
      rw [show List.enumFrom n (x :: xs) = (n, x) :: List.enumFrom (n + 1) xs from rfl,
        List.foldl_cons]
      cases j with
      | zero =>
          have hx : x = k := by simpa using hj
          subst hx
          have hk : x ∉ xs := (List.nodup_cons.mp hnd).1
          rw [prefFold_not_mem mult _ _ _ _ hk]
          simp [prefStep]
      | succ j =>
          rw [ih (n + 1) (prefStep mult acc (n, x)) j (List.nodup_cons.mp hnd).2
            (by simpa using hj)]
          have hnj : n + 1 + j = n + (j + 1) := by omega
          rw [hnj]

/-- The last element of the enumerated list scores `(n + length + 1) * mult`,
regardless of what precedes it (later dict entries overwrite earlier ones). -/
theorem prefFold_last (mult : Int) (n : Nat) (ys : List String) (k : String)
    (acc : String → Int) :
    ((List.enumFrom n (ys ++ [k])).foldl (prefStep mult) acc) k
      = (((n + ys.length : Nat) : Int) + 1) * mult := by
  induction ys generalizing n acc with
  | nil => simp [List.enumFrom, prefStep]
  | cons y ys ih =>
      rw [show List.enumFrom n ((y :: ys) ++ [k]) = (n, y) :: List.enumFrom (n + 1) (ys ++ [k])
        from rfl, List.foldl_cons, ih]
      have hn : n + 1 + ys.length = n + (y :: ys).length := by simp; omega
      rw [hn]

/-- A key not occurring in the order list scores 0. -/
theorem order_to_pref_not_mem (jsi_order : List String) (mult : Int) (jsi : JSIClass)
    (m : String) (h : jsi.JSI_KEY ∉ jsi_order) :
    order_to_pref jsi_order mult jsi m = 0 := by
  have h' : jsi.JSI_KEY ∉ jsi_order.reverse := by simpa using h
  show (List.enumFrom 0 jsi_order.reverse).foldl (prefStep mult) (fun _ => 0) jsi.JSI_KEY = 0
  rw [prefFold_not_mem mult 0 jsi_order.reverse _ _ h']

/-- The head of the order list scores `(length of tail + 1) * mult`. -/
theorem order_to_pref_first (X : String) (rest : List String) (mult : Int)
    (jsi : JSIClass) (m : String) (hk : jsi.JSI_KEY = X) :
    order_to_pref (X :: rest) mult jsi m = ((rest.length : Int) + 1) * mult := by
  show (List.enumFrom 0 (X :: rest).reverse).foldl (prefStep mult) (fun _ => 0) jsi.JSI_KEY
      = ((rest.length : Int) + 1) * mult
  rw [List.reverse_cons, hk, prefFold_last mult 0 rest.reverse X (fun _ => 0)]
  simp

/-- Python's `sum` over the preference set is the sum of the mapped scores. -/
theorem combinedScore_eq_sum (prefs : List (JSIClass → String → Int))
    (h : JSIClass) (m : String) :
    combinedScore prefs h m = (prefs.map (fun f => f h m)).sum := by
  rw [combinedScore, ← List.foldl_map, List.sum_eq_foldl]

/-- C5: the scoring function derived from an ordered key list and a weight
multiplier gives the key at 1-based position `p` counted from the end of the
list a score of `p * multiplier`, and gives score 0 to every key not in the
list. -/
theorem order_to_pref_position_score (jsi_order : List String) (multiplier : Int)
    (jsi : JSIClass) (m : String) (p : Nat) (hnd : jsi_order.Nodup) :
    (1 ≤ p → jsi_order.reverse.get? (p - 1) = some jsi.JSI_KEY →
        order_to_pref jsi_order multiplier jsi m = (p : Int) * multiplier)
    ∧ (jsi.JSI_KEY ∉ jsi_order → order_to_pref jsi_order multiplier jsi m = 0) := by
  constructor
  · intro hp hget
    have hnd' : jsi_order.reverse.Nodup := by simpa using hnd
    have hfold := prefFold_get multiplier 0 jsi_order.reverse (fun _ => 0)
      jsi.JSI_KEY (p - 1) hnd' hget
    show (List.enumFrom 0 jsi_order.reverse).foldl (prefStep multiplier) (fun _ => 0)
        jsi.JSI_KEY = (p : Int) * multiplier
    rw [hfold]
    have hcast : (((0 + (p - 1) : Nat) : Int) + 1) = (p : Int) := by omega
    rw [hcast]
  · intro h
    exact order_to_pref_not_mem jsi_order multiplier jsi m h

/-- Witness for C5 at a concrete order list: in `["A", "B"]` with multiplier
100, key "A" sits at position 2 from the end and scores 200. -/
theorem order_to_pref_position_score_witness :
    (["A", "B"] : List String).Nodup ∧ 1 ≤ 2
    ∧ (["A", "B"] : List String).reverse.get? (2 - 1) = some jsiA.JSI_KEY
    ∧ order_to_pref ["A", "B"] 100 jsiA "execute" = (2 : Int) * 100 :=
  ⟨by decide, by decide, by rfl,
    (order_to_pref_position_score ["A", "B"] 100 jsiA "execute" 2 (by decide)).1
      (by decide) (by rfl)⟩

/-- C6: the combined preference score equals the sum over all active scoring
functions of that function's score for the backend; in particular, a global
scorer returning 2 for backend X together with a session order list placing
X first with multiplier 100 (empty operator preference list, default base
preference 0) yields a combined score of at least 102 for X, strictly
greater than that of any backend mentioned in neither. -/
theorem combined_preference_additive :
    (∀ (prefs : List (JSIClass → String → Int)) (h : JSIClass) (m : String),
        combinedScore prefs h m = (prefs.map (fun f => f h m)).sum)
    ∧ (∀ (X : String) (rest : List String) (jX jY : JSIClass) (m : String),
        jX.JSI_KEY = X → jX._BASE_PREFERENCE = 0 →
        jY.JSI_KEY ≠ X → jY.JSI_KEY ∉ X :: rest → jY._BASE_PREFERENCE = 0 →
        102 ≤ combinedScore [order_to_pref [] 10000, order_to_pref (X :: rest) 100,
            fun j _ => if j.JSI_KEY = X then 2 else 0, base_preference] jX m
        ∧ combinedScore [order_to_pref [] 10000, order_to_pref (X :: rest) 100,
            fun j _ => if j.JSI_KEY = X then 2 else 0, base_preference] jY m
          < combinedScore [order_to_pref [] 10000, order_to_pref (X :: rest) 100,
            fun j _ => if j.JSI_KEY = X then 2 else 0, base_preference] jX m) := by
  constructor
  · exact combinedScore_eq_sum
  · intro X rest jX jY m hkX hbX hkY hmY hbY
    have hXscore : combinedScore [order_to_pref [] 10000, order_to_pref (X :: rest) 100,
        fun j _ => if j.JSI_KEY = X then 2 else 0, base_preference] jX m
        = ((rest.length : Int) + 1) * 100 + 2 := by
      rw [combinedScore_eq_sum]
      simp only [List.map_cons, List.map_nil, List.sum_cons, List.sum_nil]
      rw [order_to_pref_not_mem [] 10000 jX m (by simp),
        order_to_pref_first X rest 100 jX m hkX]
      simp [base_preference, hbX, hkX]
    have hYscore : combinedScore [order_to_pref [] 10000, order_to_pref (X :: rest) 100,
        fun j _ => if j.JSI_KEY = X then 2 else 0, base_preference] jY m = 0 := by
      rw [combinedScore_eq_sum]
      simp only [List.map_cons, List.map_nil, List.sum_cons, List.sum_nil]
      rw [order_to_pref_not_mem [] 10000 jY m (by simp),
        order_to_pref_not_mem (X :: rest) 100 jY m hmY]
      simp [base_preference, hbY, hkY]
    have hlen : (0 : Int) ≤ (rest.length : Int) := Int.natCast_nonneg _
    constructor
    · rw [hXscore]; linarith
    · rw [hXscore, hYscore]; linarith

/-- Witness for C6 with X = "A", the order list `["A"]`, backend `jsiA` for X
and backend `jsiB` mentioned in neither. -/
theorem combined_preference_additive_witness :
    jsiA.JSI_KEY = "A" ∧ jsiA._BASE_PREFERENCE = 0
    ∧ jsiB.JSI_KEY ≠ "A" ∧ jsiB.JSI_KEY ∉ ("A" :: ([] : List String))
    ∧ jsiB._BASE_PREFERENCE = 0
    ∧ (102 ≤ combinedScore [order_to_pref [] 10000, order_to_pref ("A" :: []) 100,
          fun j _ => if j.JSI_KEY = "A" then 2 else 0, base_preference] jsiA "execute"
      ∧ combinedScore [order_to_pref [] 10000, order_to_pref ("A" :: []) 100,
          fun j _ => if j.JSI_KEY = "A" then 2 else 0, base_preference] jsiB "execute"
        < combinedScore [order_to_pref [] 10000, order_to_pref ("A" :: []) 100,
          fun j _ => if j.JSI_KEY = "A" then 2 else 0, base_preference] jsiA "execute") :=
  ⟨rfl, rfl, by decide, by decide, rfl,
    combined_preference_additive.2 "A" [] jsiA jsiB "execute" rfl rfl
      (by decide) (by decide) rfl⟩

/-! Lemmas for the registry lookup filters. -/

/-- Looking up a key that occurs in the registry succeeds and returns a
class carrying that key. -/
theorem lookup_of_mem_keys (registry : List JSIClass) (k : String)
    (hk : k ∈ registry.map (fun c => c.JSI_KEY)) :
    ∃ c, lookupCls registry k = some c ∧ c.JSI_KEY = k := by
  rcases List.mem_map.mp hk with ⟨c, hc, hck⟩
  have hsome : (lookupCls registry k).isSome :=
    List.find?_isSome.mpr ⟨c, hc, by simp [hck]⟩
  rcases Option.isSome_iff_exists.mp hsome with ⟨c', hc'⟩
  refine ⟨c', hc', ?_⟩
  have hp := List.find?_some hc'
  simpa using hp

/-- Membership through the capability stage of `filter_jsi_keys`. -/
theorem mem_feature_stage (registry : List JSIClass) (features : List String) (k : String) :
    k ∈ (if features.isEmpty then registry.map (fun c => c.JSI_KEY) else
      (registry.map (fun c => c.JSI_KEY)).filter (fun k => decide ((lookupCls registry k).isSome
        ∧ ∀ f ∈ features, f ∈ supported_features_of registry k)))
    ↔ (k ∈ registry.map (fun c => c.JSI_KEY)
        ∧ ∀ f ∈ features, f ∈ supported_features_of registry k) := by
  by_cases hf : features.isEmpty = true
  · obtain rfl : features = [] := by simpa using hf
    simp
  · rw [if_neg hf]
    simp only [List.mem_filter, decide_eq_true_eq]
    constructor
    · rintro ⟨hmem, _, hall⟩
      exact ⟨hmem, hall⟩
    · rintro ⟨hmem, hall⟩
      rcases lookup_of_mem_keys registry k hmem with ⟨c, hc, _⟩
      exact ⟨hmem, ⟨by simp [hc], hall⟩⟩

/-- Membership through the include stage of `filter_jsi_keys`. -/
theorem mem_include_stage (keys only_include : List String) (k : String) :
    k ∈ (if only_include.isEmpty then keys else
      keys.filter (fun k => decide (k ∈ only_include)))
    ↔ (k ∈ keys ∧ (only_include ≠ [] → k ∈ only_include)) := by
  by_cases hi : only_include.isEmpty = true
  · obtain rfl : only_include = [] := by simpa using hi
    simp
  · have hne : only_include ≠ [] := by simpa using hi
    rw [if_neg hi]
    simp only [List.mem_filter, decide_eq_true_eq]
    constructor
    · rintro ⟨hmem, hin⟩
      exact ⟨hmem, fun _ => hin⟩
    · rintro ⟨hmem, hin⟩
      exact ⟨hmem, hin hne⟩

/-- Membership through the exclude stage of `filter_jsi_keys`. -/
theorem mem_exclude_stage (keys exclude : List String) (k : String) :
    k ∈ (if exclude.isEmpty then keys else
      keys.filter (fun k => decide (k ∉ exclude)))
    ↔ (k ∈ keys ∧ k ∉ exclude) := by
  by_cases he : exclude.isEmpty = true
  · obtain rfl : exclude = [] := by simpa using he
    simp
  · rw [if_neg he]
    simp [List.mem_filter]

/-- C3: for every requested capability set that is a subset of the closed
feature set, the eligible-backend lookup returns exactly the registered
backends whose declared capability set is a superset of the requested set,
restricted to the include list (when given) and to non-membership in the
exclude list — exact superset matching, not overlap. -/
theorem filter_jsi_keys_superset_matching (registry : List JSIClass)
    (features only_include exclude : List String)
    (hsub : ∀ f ∈ features, f ∈ ALL_FEATURES) (k : String) :
    k ∈ filter_jsi_keys registry features only_include exclude ↔
      (k ∈ registry.map (fun c => c.JSI_KEY)
       ∧ (∀ f ∈ features, f ∈ supported_features_of registry k)
       ∧ (only_include ≠ [] → k ∈ only_include)
       ∧ k ∉ exclude) := by
  simp only [filter_jsi_keys]
  rw [mem_exclude_stage, mem_include_stage, mem_feature_stage]
  tauto

/-- Witness for C3: requesting `{dom}` over the two-backend registry with
"B" excluded keeps exactly backend "A". -/
theorem filter_jsi_keys_superset_matching_witness :
    (∀ f ∈ (["dom"] : List String), f ∈ ALL_FEATURES)
    ∧ ("A" ∈ filter_jsi_keys [jsiA, jsiB] ["dom"] [] ["B"] ↔
        ("A" ∈ ([jsiA, jsiB].map (fun c => c.JSI_KEY))
         ∧ (∀ f ∈ (["dom"] : List String), f ∈ supported_features_of [jsiA, jsiB] "A")
         ∧ (([] : List String) ≠ [] → "A" ∈ ([] : List String))
         ∧ "A" ∉ (["B"] : List String))) :=
  ⟨by decide,
    filter_jsi_keys_superset_matching [jsiA, jsiB] ["dom"] [] ["B"] (by decide) "A"⟩

/-- C7: constructing a wrapper with a requested capability set containing a
tag outside the closed set fails with the unsupported-features error whose
payload is the full set difference, containing every offending tag. -/
theorem init_unsupported_features (registry : List JSIClass)
    (globalPrefs : List (JSIClass → String → Int))
    (features only_include exclude user_prefs preferred_order : List String)
    (fallback : FallbackPolicy) (is_test : Bool)
    (hbad : ∃ f ∈ features, f ∉ ALL_FEATURES) :
    JSIWrapper.init registry globalPrefs features only_include exclude user_prefs
        preferred_order fallback is_test
      = .error (.unsupportedFeatures
          ((features.filter (fun f => decide (f ∉ ALL_FEATURES))).dedup))
    ∧ ∀ f ∈ features, f ∉ ALL_FEATURES →
        f ∈ (features.filter (fun f => decide (f ∉ ALL_FEATURES))).dedup := by
  rcases hbad with ⟨f0, hf0, hf0n⟩
  have hmem : f0 ∈ (features.filter (fun f => decide (f ∉ ALL_FEATURES))).dedup := by
    rw [List.mem_dedup, List.mem_filter]
    exact ⟨hf0, by simpa using hf0n⟩
  have hne : ((features.filter (fun f => decide (f ∉ ALL_FEATURES))).dedup).isEmpty = false := by
    rcases h : ((features.filter (fun f => decide (f ∉ ALL_FEATURES))).dedup) with _ | ⟨a, l⟩
    · rw [h] at hmem
      simp at hmem
    · rfl
  constructor
  · simp only [JSIWrapper.init, hne]
    rfl
  · intro f hf hfn
    rw [List.mem_dedup, List.mem_filter]
    exact ⟨hf, by simpa using hfn⟩

/-- Witness for C7 at the concrete request `{bogus, dom}`. -/
theorem init_unsupported_features_witness :
    (∃ f ∈ (["bogus", "dom"] : List String), f ∉ ALL_FEATURES)
    ∧ JSIWrapper.init [jsiA] [] ["bogus", "dom"] [] [] [] [] (.keys []) false
        = .error (.unsupportedFeatures
            (((["bogus", "dom"] : List String).filter
              (fun f => decide (f ∉ ALL_FEATURES))).dedup)) :=
  ⟨by decide,
    (init_unsupported_features [jsiA] [] ["bogus", "dom"] [] [] [] []
      (.keys []) false (by decide)).1⟩

/-! Dispatch-loop behaviour. -/

/-- C2: when an available candidate raises a recoverable error, the loop
records the (backend, error) pair and tries the next candidate if the
backend's key is fallback-allowed, and otherwise propagates that error
immediately with no further candidate invoked. -/
theorem dispatch_loop_fallback (w : JSIWrapper) (m : String) (args : List String)
    (kwargs : List (String × String)) (h : JSIClass) (rest : List JSIClass)
    (unav : List String) (excs : List (String × String)) (e : String)
    (hav : h.is_available = true) (herr : h.run m args kwargs = .error e) :
    (h.JSI_KEY ∈ w._fallback_jsi →
      dispatch_loop w m args kwargs (h :: rest) unav excs
        = (let out := dispatch_loop w m args kwargs rest unav (excs ++ [(h.JSI_KEY, e)])
           { out with invoked := h.JSI_KEY :: out.invoked }))
    ∧ (h.JSI_KEY ∉ w._fallback_jsi →
      dispatch_loop w m args kwargs (h :: rest) unav excs
        = ⟨.error e, unav, excs, [h.JSI_KEY]⟩) := by
  constructor
  · intro hin
    simp [dispatch_loop, hav, herr, hin]
  · intro hout
    simp [dispatch_loop, hav, herr, hout]

/-- Witness for C2: backend "F" fails recoverably and is fallback-allowed in
`wFallback`, so dispatch records the error and continues with "B". -/
theorem dispatch_loop_fallback_witness :
    jsiFail.is_available = true ∧ jsiFail.run "execute" [] [] = .error "boom"
    ∧ jsiFail.JSI_KEY ∈ wFallback._fallback_jsi
    ∧ dispatch_loop wFallback "execute" [] [] [jsiFail, jsiB] [] []
        = (let out := dispatch_loop wFallback "execute" [] [] [jsiB] []
              ([] ++ [(jsiFail.JSI_KEY, "boom")])
           { out with invoked := jsiFail.JSI_KEY :: out.invoked }) :=
  ⟨rfl, rfl, by decide,
    (dispatch_loop_fallback wFallback "execute" [] [] jsiFail [jsiB] [] [] "boom"
      rfl rfl).1 (by decide)⟩

/-- When every remaining candidate is unavailable (outside test mode), the
loop skips each in order, accumulating its name, and raises the aggregated
exhaustion message without invoking anything. -/
theorem dispatch_loop_all_unavailable (w : JSIWrapper) (m : String) (args : List String)
    (kwargs : List (String × String)) (htest : w._is_test = false) :
    ∀ (hs : List JSIClass), (∀ h ∈ hs, h.is_available = false) →
    ∀ (unav : List String) (excs : List (String × String)),
      dispatch_loop w m args kwargs hs unav excs
        = ⟨.error (exhaustedMsg m (unav ++ hs.map (fun h => h.JSI_NAME)) excs),
           unav ++ hs.map (fun h => h.JSI_NAME), excs, []⟩ := by
  intro hs
  induction hs with
  | nil =>
      intro _ unav excs
      simp [dispatch_loop]
  | cons h rest ih =>
      intro hall unav excs
      have hh : h.is_available = false := hall h (by simp)
      have hrest : ∀ x ∈ rest, x.is_available = false := fun x hx => hall x (by simp [hx])
      rw [show dispatch_loop w m args kwargs (h :: rest) unav excs
          = dispatch_loop w m args kwargs rest (unav ++ [h.JSI_NAME]) excs by
        simp [dispatch_loop, hh, htest]]
      rw [ih hrest (unav ++ [h.JSI_NAME]) excs]
      simp

/-- C4: a dispatch all of whose candidates report unavailable fails with the
aggregated error listing all of them as unavailable and an empty
failed-attempt list; and whenever candidates both failed and were
unavailable, the aggregated error additionally suggests installing one of
the unavailable backends. -/
theorem dispatch_all_unavailable_aggregate (w : JSIWrapper) (m : String)
    (args : List String) (kwargs : List (String × String)) (hs : List JSIClass)
    (hget : get_handlers w m = .ok hs) (htest : w._is_test = false)
    (hall : ∀ h ∈ hs, h.is_available = false) :
    dispatch_request w m args kwargs
      = ⟨.error ("No available JSI installed, please install one of: "
            ++ String.intercalate ", " (hs.map (fun h => h.JSI_NAME))),
         hs.map (fun h => h.JSI_NAME), [], []⟩
    ∧ (∀ (unav2 : List String) (excs2 : List (String × String)),
        unav2 ≠ [] → excs2 ≠ [] →
        (dispatch_loop w m args kwargs [] unav2 excs2).result
          = .error ("Failed to perform " ++ m ++ ", total " ++ toString excs2.length
              ++ " errors" ++ ". You can try installing one of unavailable JSI: "
              ++ String.intercalate ", " unav2)) := by
  constructor
  · have hreq : dispatch_request w m args kwargs = dispatch_loop w m args kwargs hs [] [] := by
      simp [dispatch_request, hget]
    rw [hreq, dispatch_loop_all_unavailable w m args kwargs htest hs hall [] []]
    simp [exhaustedMsg]
  · intro unav2 excs2 hu he
    rcases unav2 with _ | ⟨u, us⟩
    · exact absurd rfl hu
    rcases excs2 with _ | ⟨x, xs⟩
    · exact absurd rfl he
    simp [dispatch_loop, exhaustedMsg]

/-- Witness for C4: the single candidate "U" of `wUnavail` is unavailable,
so dispatch aggregates it with no failed attempts. -/
theorem dispatch_all_unavailable_aggregate_witness :
    get_handlers wUnavail "execute" = .ok [jsiUnavail]
    ∧ wUnavail._is_test = false
    ∧ (∀ h ∈ [jsiUnavail], h.is_available = false)
    ∧ dispatch_request wUnavail "execute" [] []
        = ⟨.error ("No available JSI installed, please install one of: "
              ++ String.intercalate ", " ([jsiUnavail].map (fun h => h.JSI_NAME))),
           [jsiUnavail].map (fun h => h.JSI_NAME), [], []⟩ :=
  ⟨rfl, rfl, by decide,
    (dispatch_all_unavailable_aggregate wUnavail "execute" [] [] [jsiUnavail]
      rfl rfl (by decide)).1⟩

/-- A successful run of the dispatch loop decomposes the candidate list into
a prefix of skipped or fallback-recorded candidates, the succeeding backend,
and an untouched suffix: the invocation trace covers exactly the available
prefix candidates followed by the succeeding one. -/
theorem dispatch_loop_ok_decomp (w : JSIWrapper) (m : String) (args : List String)
    (kwargs : List (String × String)) :
    ∀ (hs : List JSIClass) (unav : List String) (excs : List (String × String)) (r : String),
      (dispatch_loop w m args kwargs hs unav excs).result = .ok r →
      ∃ pre hd post, hs = pre ++ hd :: post
        ∧ hd.is_available = true ∧ hd.run m args kwargs = .ok r
        ∧ (dispatch_loop w m args kwargs hs unav excs).invoked
            = (pre.filter (fun x => x.is_available)).map (fun x => x.JSI_KEY) ++ [hd.JSI_KEY]
        ∧ ∀ x ∈ pre, x.is_available = true →
            ∃ e, x.run m args kwargs = .error e ∧ x.JSI_KEY ∈ w._fallback_jsi := by
  intro hs
  induction hs with
  | nil =>
      intro unav excs r hr
      simp [dispatch_loop] at hr
  | cons h rest ih =>
      intro unav excs r hr
      by_cases hav : h.is_available = true
      · cases hrun : h.run m args kwargs with
        | ok r0 =>
            have hloop : dispatch_loop w m args kwargs (h :: rest) unav excs
                = ⟨.ok r0, unav, excs, [h.JSI_KEY]⟩ := by
              simp [dispatch_loop, hav, hrun]
            rw [hloop] at hr
            have hr0 : r0 = r := by simpa using hr
            subst hr0
            exact ⟨[], h, rest, rfl, hav, hrun, by rw [hloop]; simp, by simp⟩
        | error e =>
            by_cases hin : h.JSI_KEY ∈ w._fallback_jsi
            · have hloop : dispatch_loop w m args kwargs (h :: rest) unav excs
                  = (let out := dispatch_loop w m args kwargs rest unav
                        (excs ++ [(h.JSI_KEY, e)])
                     { out with invoked := h.JSI_KEY :: out.invoked }) := by
                simp [dispatch_loop, hav, hrun, hin]
              have hres : (dispatch_loop w m args kwargs rest unav
                  (excs ++ [(h.JSI_KEY, e)])).result = .ok r := by
                rw [hloop] at hr
                exact hr
              rcases ih unav (excs ++ [(h.JSI_KEY, e)]) r hres with
                ⟨pre, hd, post, heq, hdav, hdrun, hinv, hpre⟩
              refine ⟨h :: pre, hd, post, by simp [heq], hdav, hdrun, ?_, ?_⟩
              · rw [hloop]
                show h.JSI_KEY :: (dispatch_loop w m args kwargs rest unav
                    (excs ++ [(h.JSI_KEY, e)])).invoked = _
                rw [hinv]
                simp [List.filter_cons, hav]
              · intro x hx hxav
                rcases List.mem_cons.mp hx with rfl | hx'
                · exact ⟨e, hrun, hin⟩
                · exact hpre x hx' hxav
            · have hloop : dispatch_loop w m args kwargs (h :: rest) unav excs
                  = ⟨.error e, unav, excs, [h.JSI_KEY]⟩ := by
                simp [dispatch_loop, hav, hrun, hin]
              rw [hloop] at hr
              simp at hr
      · have hav' : h.is_available = false := by
          cases hb : h.is_available
          · rfl
          · exact absurd hb hav
        by_cases htest : w._is_test = true
        · have hloop : dispatch_loop w m args kwargs (h :: rest) unav excs
              = ⟨.error (h.JSI_NAME ++ " is not available for testing, add \"" ++ h.JSI_KEY
                  ++ "\" in `exclude` if it should not be used"), unav, excs, []⟩ := by
            simp [dispatch_loop, hav', htest]
          rw [hloop] at hr
          simp at hr
        · have hloop : dispatch_loop w m args kwargs (h :: rest) unav excs
              = dispatch_loop w m args kwargs rest (unav ++ [h.JSI_NAME]) excs := by
            simp [dispatch_loop, hav', htest]
          have hres : (dispatch_loop w m args kwargs rest
              (unav ++ [h.JSI_NAME]) excs).result = .ok r := by
            rw [hloop] at hr
            exact hr
          rcases ih (unav ++ [h.JSI_NAME]) excs r hres with
            ⟨pre, hd, post, heq, hdav, hdrun, hinv, hpre⟩
          refine ⟨h :: pre, hd, post, by simp [heq], hdav, hdrun, ?_, ?_⟩
          · rw [hloop, hinv]
            simp [List.filter_cons, hav']
          · intro x hx hxav
            rcases List.mem_cons.mp hx with rfl | hx'
            · exact absurd hxav (by simp [hav'])
            · exact hpre x hx' hxav

/-- C1: the candidate backends returned for a dispatch are ordered by
descending combined preference score, and a successful dispatch returns the
result of the first succeeding backend: every earlier candidate was either
unavailable or failed with a fallback-allowed error, and no candidate after
the succeeding one is ever invoked. -/
theorem dispatch_descending_first_success (w : JSIWrapper) (m : String)
    (args : List String) (kwargs : List (String × String)) (hs : List JSIClass)
    (r : String) (hget : get_handlers w m = .ok hs)
    (hr : (dispatch_request w m args kwargs).result = .ok r) :
    hs.Pairwise (fun a b =>
      combinedScore w.preferences b m ≤ combinedScore w.preferences a m)
    ∧ ∃ pre hd post, hs = pre ++ hd :: post
        ∧ hd.is_available = true ∧ hd.run m args kwargs = .ok r
        ∧ (dispatch_request w m args kwargs).invoked
            = (pre.filter (fun x => x.is_available)).map (fun x => x.JSI_KEY) ++ [hd.JSI_KEY]
        ∧ ∀ x ∈ pre, x.is_available = true →
            ∃ e, x.run m args kwargs = .error e ∧ x.JSI_KEY ∈ w._fallback_jsi := by
  have hreq : dispatch_request w m args kwargs = dispatch_loop w m args kwargs hs [] [] := by
    simp [dispatch_request, hget]
  constructor
  · have hsort : hs = List.insertionSort
        (fun a b => combinedScore w.preferences b m ≤ combinedScore w.preferences a m)
        (w._handler_dict.filter (fun h => h.hasMethod m)) := by
      simp only [get_handlers] at hget
      by_cases hemp : (w._handler_dict.filter (fun h => h.hasMethod m)).isEmpty = true
      · rw [if_pos hemp] at hget
        cases hget
      · rw [if_neg hemp] at hget
        injection hget with hget
        exact hget.symm
    rw [hsort]
    haveI : IsTotal JSIClass (fun a b =>
        combinedScore w.preferences b m ≤ combinedScore w.preferences a m) :=
      ⟨fun a b => le_total _ _⟩
    haveI : IsTrans JSIClass (fun a b =>
        combinedScore w.preferences b m ≤ combinedScore w.preferences a m) :=
      ⟨fun _ _ _ hab hbc => le_trans hbc hab⟩
    exact List.sorted_insertionSort _ _
  · rw [hreq]
    exact dispatch_loop_ok_decomp w m args kwargs hs [] [] r (by rw [← hreq]; exact hr)

/-- Witness for C1: in `wAB` backend "A" scores 200 and "B" scores 100; the
dispatch returns "A"'s result with "B" never invoked. -/
theorem dispatch_descending_first_success_witness :
    get_handlers wAB "execute" = .ok [jsiA, jsiB]
    ∧ (dispatch_request wAB "execute" [] []).result = .ok "outA"
    ∧ (([jsiA, jsiB] : List JSIClass).Pairwise (fun a b =>
          combinedScore wAB.preferences b "execute"
            ≤ combinedScore wAB.preferences a "execute")
      ∧ ∃ pre hd post, ([jsiA, jsiB] : List JSIClass) = pre ++ hd :: post
          ∧ hd.is_available = true ∧ hd.run "execute" [] [] = .ok "outA"
          ∧ (dispatch_request wAB "execute" [] []).invoked
              = (pre.filter (fun x => x.is_available)).map (fun x => x.JSI_KEY)
                  ++ [hd.JSI_KEY]
          ∧ ∀ x ∈ pre, x.is_available = true →
              ∃ e, x.run "execute" [] [] = .error e ∧ x.JSI_KEY ∈ wAB._fallback_jsi) :=
  ⟨rfl, rfl,
    dispatch_descending_first_success wAB "execute" [] [] [jsiA, jsiB] "outA" rfl rfl⟩

/-! The `execute` contract check and construction-time instantiation. -/

/-- C8: a call to `execute` supplying a document body (`html`) or a cookie
store (`cookiejar`) without the corresponding declared capability fails with
the contract-violation error before any backend is invoked (whole outcome is
the bare error: nothing invoked, nothing recorded). -/
theorem execute_contract_violation (w : JSIWrapper) (jscode video_id : String)
    (kw : ExecKwargs)
    (hviol : (kw.html.isSome = true ∧ "dom" ∉ w._features)
      ∨ (kw.cookiejar.isSome = true ∧ "cookies" ∉ w._features)) :
    execute w jscode video_id kw
        = ⟨.error "feature dom is required for `html` param but not declared", [], [], []⟩
    ∨ execute w jscode video_id kw
        = ⟨.error "feature cookies is required for `cookiejar` param but not declared",
           [], [], []⟩ := by
  by_cases hdom : kw.html.isSome = true ∧ "dom" ∉ w._features
  · left
    simp [execute, hdom.1, hdom.2]
  · rcases hviol with h | h
    · exact absurd h hdom
    · right
      simp [execute, hdom, h.1, h.2]

/-- Witness for C8: passing `html` (even as `None`) to a session that did
not declare "dom" raises the contract violation with nothing invoked. -/
theorem execute_contract_violation_witness :
    ((ExecKwargs.mk none (some none) none).html.isSome = true ∧ "dom" ∉ wNoDom._features)
    ∧ (execute wNoDom "1" "vid" ⟨none, some none, none⟩
        = ⟨.error "feature dom is required for `html` param but not declared", [], [], []⟩
      ∨ execute wNoDom "1" "vid" ⟨none, some none, none⟩
        = ⟨.error "feature cookies is required for `cookiejar` param but not declared",
           [], [], []⟩) :=
  ⟨⟨rfl, by decide⟩,
    execute_contract_violation wNoDom "1" "vid" ⟨none, some none, none⟩
      (Or.inl ⟨rfl, by decide⟩)⟩

/-- C10: the pre-dispatch feature check fires on the mere presence of a
protected keyword, not on its value: without the "dom" feature, passing
`html = None` explicitly raises the contract violation with no backend
invoked, while the same call with `html` omitted dispatches and succeeds;
the `None` value is filtered out only after the check, so both calls forward
identical kwargs to the backends. -/
theorem execute_presence_check (w : JSIWrapper) (jscode video_id : String)
    (hdom : "dom" ∉ w._features) (r : String)
    (hdisp : (dispatch_request w "execute" [jscode, video_id]
        (execForwardedKwargs ⟨none, none, none⟩)).result = .ok r) :
    (execute w jscode video_id ⟨none, some none, none⟩).result
        = .error "feature dom is required for `html` param but not declared"
    ∧ (execute w jscode video_id ⟨none, some none, none⟩).invoked = []
    ∧ (execute w jscode video_id ⟨none, none, none⟩).result = .ok r
    ∧ execForwardedKwargs ⟨none, some none, none⟩ = execForwardedKwargs ⟨none, none, none⟩ := by
  refine ⟨?_, ?_, ?_, rfl⟩
  · simp [execute, hdom]
  · simp [execute, hdom]
  · have hexec : execute w jscode video_id ⟨none, none, none⟩
        = dispatch_request w "execute" [jscode, video_id]
            (execForwardedKwargs ⟨none, none, none⟩) := by
      simp [execute]
    rw [hexec]
    exact hdisp

/-- Witness for C10 on the dom-less session `wNoDom`, whose backend "A"
succeeds whenever it is dispatched to. -/
theorem execute_presence_check_witness :
    "dom" ∉ wNoDom._features
    ∧ (dispatch_request wNoDom "execute" ["1", "vid"]
        (execForwardedKwargs ⟨none, none, none⟩)).result = .ok "outA"
    ∧ ((execute wNoDom "1" "vid" ⟨none, some none, none⟩).result
          = .error "feature dom is required for `html` param but not declared"
      ∧ (execute wNoDom "1" "vid" ⟨none, some none, none⟩).invoked = []
      ∧ (execute wNoDom "1" "vid" ⟨none, none, none⟩).result = .ok "outA"
      ∧ execForwardedKwargs ⟨none, some none, none⟩
          = execForwardedKwargs ⟨none, none, none⟩) :=
  ⟨by decide, rfl, execute_presence_check wNoDom "1" "vid" (by decide) "outA" rfl⟩

/-- C9 counterexample: constructing a session over the one-backend registry
already instantiates backend "A" during `__init__` — the construction-time
instantiation trace is `["A"]`, not empty, before any operation call. -/
theorem init_instantiates_eagerly_counterexample :
    (JSIWrapper.init [jsiA] [] [] [] [] [] [] (.keys []) false).map (fun p => p.2)
      = .ok ["A"]
    ∧ (["A"] : List String) ≠ [] :=
  ⟨rfl, by decide⟩

/-- Every key kept by `filter_jsi_keys` is a registered key. -/
theorem filter_jsi_keys_subset (registry : List JSIClass)
    (features only_include exclude : List String) :
    ∀ k ∈ filter_jsi_keys registry features only_include exclude,
      k ∈ registry.map (fun c => c.JSI_KEY) := by
  intro k hk
  simp only [filter_jsi_keys] at hk
  rw [mem_exclude_stage, mem_include_stage, mem_feature_stage] at hk
  exact hk.1.1.1

/-- Looking up a list of registered keys recovers exactly those keys. -/
theorem filterMap_lookup_keys (registry : List JSIClass) (keys : List String)
    (hsub : ∀ k ∈ keys, k ∈ registry.map (fun c => c.JSI_KEY)) :
    (keys.filterMap (lookupCls registry)).map (fun c => c.JSI_KEY) = keys := by
  induction keys with
  | nil => rfl
  | cons k ks ih =>
      rcases lookup_of_mem_keys registry k (hsub k (by simp)) with ⟨c, hc, hck⟩
      simp only [List.filterMap_cons, hc, List.map_cons, hck]
      rw [ih (fun x hx => hsub x (by simp [hx]))]

/-- Successful instantiation returns the handler classes unchanged. -/
theorem instantiateHandlers_ok (features : List String) :
    ∀ (cs hs : List JSIClass), instantiateHandlers features cs = .ok hs → hs = cs := by
  intro cs
  induction cs with
  | nil =>
      intro hs h
      simp only [instantiateHandlers] at h
      injection h with h
      exact h.symm
  | cons c cs ih =>
      intro hs h
      simp only [instantiateHandlers] at h
      by_cases hc : ∀ f ∈ features, f ∈ c._SUPPORTED_FEATURES
      · rw [if_pos hc] at h
        cases hrec : instantiateHandlers features cs with
        | error e =>
            rw [hrec] at h
            cases h
        | ok l =>
            rw [hrec] at h
            simp only [Except.map] at h
            injection h with h
            rw [← h, ih l hrec]
      · rw [if_neg hc] at h
        cases h

/-- C9 amended: construction is eager, not lazy — on success the keys
instantiated during construction, and the handler pool the session holds,
are exactly the eligible-backend lookup result. -/
theorem init_instantiates_all_eligible (registry : List JSIClass)
    (globalPrefs : List (JSIClass → String → Int))
    (features only_include exclude user_prefs preferred_order : List String)
    (fallback : FallbackPolicy) (is_test : Bool) (w : JSIWrapper) (trace : List String)
    (hok : JSIWrapper.init registry globalPrefs features only_include exclude
        user_prefs preferred_order fallback is_test = .ok (w, trace)) :
    trace = filter_jsi_keys registry features only_include exclude
    ∧ w._handler_dict.map (fun c => c.JSI_KEY) = trace := by
  simp only [JSIWrapper.init] at hok
  by_cases hu : ((features.filter (fun f => decide (f ∉ ALL_FEATURES))).dedup).isEmpty
  · rw [if_neg (by rw [hu]; simp)] at hok
    by_cases hc : (((filter_jsi_keys registry features only_include exclude).filterMap
        (lookupCls registry)).isEmpty) = true
    · rw [if_pos hc] at hok
      cases hok
    · rw [if_neg hc] at hok
      cases hrec : instantiateHandlers features
          ((filter_jsi_keys registry features only_include exclude).filterMap
            (lookupCls registry)) with
      | error e =>
          rw [hrec] at hok
          cases hok
      | ok hs =>
          rw [hrec] at hok
          simp only [Except.map] at hok
          injection hok with hok
          rw [Prod.mk.injEq] at hok
          obtain ⟨hw, ht⟩ := hok
          have htrace : trace = ((filter_jsi_keys registry features only_include
              exclude).filterMap (lookupCls registry)).map (fun c => c.JSI_KEY) := ht.symm
          constructor
          · rw [htrace, filterMap_lookup_keys registry _
              (filter_jsi_keys_subset registry features only_include exclude)]
          · rw [← hw, htrace]
            have hhs : hs = (filter_jsi_keys registry features only_include
                exclude).filterMap (lookupCls registry) := instantiateHandlers_ok _ _ _ hrec
            rw [hhs]
  · rw [if_pos (by simpa using hu)] at hok
    cases hok

/-- Witness for C9's amended statement on the concrete one-backend registry. -/
theorem init_instantiates_all_eligible_witness :
    JSIWrapper.init [jsiA] [] [] [] [] [] [] (.keys []) false = .ok (wA_init, ["A"])
    ∧ (["A"] = filter_jsi_keys [jsiA] [] [] []
       ∧ wA_init._handler_dict.map (fun c => c.JSI_KEY) = ["A"]) :=
  ⟨rfl, init_instantiates_all_eligible [jsiA] [] [] [] [] [] [] (.keys []) false
    wA_init ["A"] rfl⟩

end JSInterp
